import Mathlib

/-!
# Verification of the DriveSense CAN diagnostic core

A shallow embedding of `src/CanInterface.py`: the ISO-TP segmentation and
reassembly engine (`IsoTpProtocol`) and the trouble-code handling of
`CanInterface` (`_convert_raw_dtc`, `read_dtcs`, `clear_dtcs`).

Modelling conventions:
* a CAN frame's data is a `List ℕ` of byte values; the arbitration
  identifier is a `ℕ` passed alongside (the Python code reads
  `msg.arbitration_id` and `msg.data`);
* Python `bytes` / `bytearray` become `List ℕ`; Python slices `xs[a:b]`
  become `(xs.drop a).take (b - a)` (both clamp identically);
* `time.time()` values are modelled as integer instants supplied
  explicitly (`now` parameters); the Python methods call `time.time()`
  themselves, and the protocol only ever compares a difference of two
  instants against the timeout, so any linearly ordered time scale
  works — one model unit stands for one second (`isoTimeout = 1`
  models `self.timeout = 1.0`);
* the two dictionaries `receive_buffer` and `last_received` become
  association lists with dictionary operations `dlookup` / `dinsert` /
  `derase` (a Python dict holds at most one entry per key; `dinsert`
  overwrites in place exactly as `d[k] = v` does);
* the `remaining` counter can go negative in Python, so it is an `ℤ`;
* Python strings become `String`; an f-string interpolation of an `int`
  is `Nat.repr` (decimal rendering).
-/

set_option maxHeartbeats 1000000

namespace DriveSense

/-- First occurrence lookup in an association list — `d[k]` / `k in d`. -/
def dlookup {α : Type} (k : ℕ) : List (ℕ × α) → Option α
  | [] => none
  | (k', v) :: rest => if k' = k then some v else dlookup k rest

/-- Dictionary write `d[k] = v`: overwrite the entry for `k` in place,
or append a fresh entry at the end (Python dicts keep insertion order). -/
def dinsert {α : Type} (k : ℕ) (v : α) : List (ℕ × α) → List (ℕ × α)
  | [] => [(k, v)]
  | (k', v') :: rest =>
      if k' = k then (k, v) :: rest else (k', v') :: dinsert k v rest

/-- Dictionary delete `del d[k]`: drop the entries keyed `k`. -/
def derase {α : Type} (k : ℕ) : List (ℕ × α) → List (ℕ × α)
  | [] => []
  | (k', v') :: rest =>
      if k' = k then derase k rest else (k', v') :: derase k rest

/-- One in-progress reassembly: the value stored in
`IsoTpProtocol.receive_buffer[arb_id]` (a Python dict literal with keys
`data`, `expected_length`, `remaining`, `last_seq`). -/
structure RState where
  data : List ℕ
  expected_length : ℕ
  remaining : ℤ
  last_seq : ℕ
  deriving DecidableEq, Repr

/-- The mutable state of `IsoTpProtocol`: the two dictionaries
`receive_buffer` and `last_received` (keyed by arbitration identifier). -/
structure IsoTpState where
  receive_buffer : List (ℕ × RState)
  last_received : List (ℕ × ℤ)
  deriving DecidableEq

/-- `IsoTpProtocol.__init__`: both dictionaries start empty. -/
def IsoTpState.empty : IsoTpState := ⟨[], []⟩

/-- `self.timeout`, set to `1.0` in `IsoTpProtocol.__init__` and never
reassigned. -/
def isoTimeout : ℤ := 1

/-- Whether the entry keyed `k` survives `_cleanup_old_messages` run at
time `now`: it is deleted exactly when its `last_received` timestamp `t`
satisfies `now - t > timeout`. -/
def keepKey (now : ℤ) (last : List (ℕ × ℤ)) (k : ℕ) : Bool :=
  match dlookup k last with
  | some t => decide (now - t ≤ isoTimeout)
  | none => true

/-- `IsoTpProtocol._cleanup_old_messages`: compute the arbitration
identifiers whose `last_received` timestamp has aged past the timeout and
delete them from both dictionaries. -/
def cleanup_old_messages (now : ℤ) (s : IsoTpState) : IsoTpState :=
  { receive_buffer := s.receive_buffer.filter (fun p => keepKey now s.last_received p.1),
    last_received := s.last_received.filter (fun p => keepKey now s.last_received p.1) }

/-- `IsoTpProtocol.process_received_frame`.  Input: the sampled current
time, the frame's arbitration identifier and data bytes, and the protocol
state.  Output: the optional `(arbitration_id, complete_data)` result and
the updated state. -/
def process_received_frame (now : ℤ) (arb_id : ℕ) (data : List ℕ)
    (s : IsoTpState) : Option (ℕ × List ℕ) × IsoTpState :=
  let first_byte := data.headD 0
  -- Clean up any old incomplete messages first
  let s := cleanup_old_messages now s
  if first_byte >>> 4 = 0 then
    -- Single Frame: length in the lower nibble, bytes data[1:1+length]
    let length := first_byte &&& 0x0F
    (some (arb_id, (data.drop 1).take length), s)
  else if first_byte >>> 4 = 1 then
    -- First Frame: 12-bit total length, store data[2:]
    let length := ((first_byte &&& 0x0F) <<< 8) + data.getD 1 0
    let st : RState :=
      { data := data.drop 2
        expected_length := length
        remaining := (length : ℤ) - ((data.length : ℤ) - 2)
        last_seq := 0 }
    (none, { receive_buffer := dinsert arb_id st s.receive_buffer,
             last_received := dinsert arb_id now s.last_received })
  else if first_byte >>> 4 = 2 then
    -- Consecutive Frame
    match dlookup arb_id s.receive_buffer with
    | none => (none, s)  -- No matching first frame
    | some st =>
      let seq_num := first_byte &&& 0x0F
      let expected_seq := (st.last_seq + 1) % 16
      if seq_num ≠ expected_seq then
        -- Sequence error, discard the entire message
        (none, { receive_buffer := derase arb_id s.receive_buffer,
                 last_received := derase arb_id s.last_received })
      else
        let st' : RState :=
          { data := st.data ++ data.drop 1
            expected_length := st.expected_length
            remaining := st.remaining - ((data.length : ℤ) - 1)
            last_seq := seq_num }
        if st'.remaining ≤ 0 then
          (some (arb_id, st'.data),
           { receive_buffer := derase arb_id s.receive_buffer,
             last_received := derase arb_id s.last_received })
        else
          (none, { receive_buffer := dinsert arb_id st' s.receive_buffer,
                   last_received := dinsert arb_id now s.last_received })
  else
    (none, s)

/-- The body of the `while remaining_data:` loop of `create_send_frames`,
with an explicit iteration bound `fuel` (each iteration consumes at least
one byte, so any `fuel ≥ remaining_data.length` runs the loop to
completion; see `consecutiveFrames_eq`). -/
def consecutiveFramesAux : ℕ → List ℕ → ℕ → List (List ℕ)
  | 0, _, _ => []
  | fuel + 1, remaining_data, seq_num =>
    if remaining_data = [] then []
    else
      let chunk := remaining_data.take 7
      let frame_data := (0x20 ||| (seq_num &&& 0x0F)) :: chunk
      (frame_data ++ List.replicate (8 - frame_data.length) 0xCC)
        :: consecutiveFramesAux fuel (remaining_data.drop 7) ((seq_num + 1) % 16)

/-- The `while remaining_data:` loop of `create_send_frames`: cut the
remaining payload into Consecutive frames of up to 7 bytes, first byte
`0x20 | (seq_num & 0x0F)`, padded to 8 bytes with `0xCC`. -/
def consecutiveFrames (remaining_data : List ℕ) (seq_num : ℕ) : List (List ℕ) :=
  consecutiveFramesAux remaining_data.length remaining_data seq_num

lemma consecutiveFramesAux_congr :
    ∀ (f₁ f₂ : ℕ) (rem : List ℕ) (seq : ℕ), rem.length ≤ f₁ → rem.length ≤ f₂ →
      consecutiveFramesAux f₁ rem seq = consecutiveFramesAux f₂ rem seq := by
  intro f₁
  induction f₁ with
  | zero =>
    intro f₂ rem seq h₁ _
    have : rem = [] := List.eq_nil_of_length_eq_zero (Nat.le_zero.mp h₁)
    subst this
    cases f₂ <;> simp [consecutiveFramesAux]
  | succ f ih =>
    intro f₂ rem seq h₁ h₂
    cases f₂ with
    | zero =>
      have : rem = [] := List.eq_nil_of_length_eq_zero (Nat.le_zero.mp h₂)
      subst this
      simp [consecutiveFramesAux]
    | succ g =>
      by_cases hrem : rem = []
      · subst hrem; simp [consecutiveFramesAux]
      · have hlen : 0 < rem.length := List.length_pos.mpr hrem
        simp only [consecutiveFramesAux, if_neg hrem]
        have hd : (rem.drop 7).length ≤ f := by
          simp only [List.length_drop]; omega
        have hd' : (rem.drop 7).length ≤ g := by
          simp only [List.length_drop]; omega
        rw [ih _ _ _ hd hd']

/-- The defining fixed-point equation of the `while remaining_data:`
loop of `create_send_frames`. -/
lemma consecutiveFrames_eq (rem : List ℕ) (seq : ℕ) :
    consecutiveFrames rem seq =
      if rem = [] then []
      else
        ((0x20 ||| (seq &&& 0x0F)) :: rem.take 7
            ++ List.replicate (8 - ((rem.take 7).length + 1)) 0xCC)
          :: consecutiveFrames (rem.drop 7) ((seq + 1) % 16) := by
  by_cases hrem : rem = []
  · subst hrem; simp [consecutiveFrames, consecutiveFramesAux]
  · have hlen : 0 < rem.length := List.length_pos.mpr hrem
    obtain ⟨n, hn⟩ : ∃ n, rem.length = n + 1 :=
      ⟨rem.length - 1, by omega⟩
    simp only [consecutiveFrames, hn, consecutiveFramesAux, if_neg hrem,
      List.length_cons, List.cons_append]
    rw [consecutiveFramesAux_congr n ((rem.drop 7).length) (rem.drop 7)]
    all_goals simp only [List.length_drop]
    all_goals omega

/-- `IsoTpProtocol.create_send_frames`: the data bytes of the emitted
frames, in order (every emitted `can.Message` carries the same
arbitration identifier, unchanged, so only the data lists are modelled). -/
def create_send_frames (data : List ℕ) : List (List ℕ) :=
  if data.length ≤ 7 then
    -- Single Frame: first byte is the length, pad with 0xCC
    let frame_data := data.length :: data
    [frame_data ++ List.replicate (8 - frame_data.length) 0xCC]
  else
    -- First Frame: 0x10 | high nibble of length, low byte, first 6 bytes
    let length := data.length
    let frame_data :=
      (0x10 ||| ((length >>> 8) &&& 0x0F)) :: (length &&& 0xFF) :: data.take 6
    frame_data :: consecutiveFrames (data.drop 6) 1

/-- Feed a list of frames (all with the same arbitration identifier,
sampled at the same instant) through `process_received_frame`, collecting
every completed message in order. -/
def feedAll (now : ℤ) (arb_id : ℕ) (frames : List (List ℕ))
    (s : IsoTpState) : List (ℕ × List ℕ) × IsoTpState :=
  match frames with
  | [] => ([], s)
  | f :: rest =>
    let step := process_received_frame now arb_id f s
    let next := feedAll now arb_id rest step.2
    (step.1.toList ++ next.1, next.2)

/-- The letter table of `CanInterface._convert_raw_dtc`. -/
def dtcLetters : List Char := ['P', 'C', 'B', 'U']

/-- `CanInterface._convert_raw_dtc`: split a raw 16-bit trouble-code value
into a letter (bits 15–14) and four digit fields, and interpolate them
into a string.  The f-string renders each field as its decimal
representation (`Nat.repr`), exactly as Python's `f"{digit}"` does. -/
def convert_raw_dtc (dtc_raw : ℕ) : String :=
  let letter_code := (dtc_raw >>> 14) &&& 0x03
  let letter := dtcLetters.getD letter_code 'P'
  let digit1 := (dtc_raw >>> 12) &&& 0x03
  let digit2 := (dtc_raw >>> 8) &&& 0x0F
  let digit3 := (dtc_raw >>> 4) &&& 0x0F
  let digit4 := dtc_raw &&& 0x0F
  String.mk [letter] ++ Nat.repr digit1 ++ Nat.repr digit2
    ++ Nat.repr digit3 ++ Nat.repr digit4

/-- The parsing loop of `CanInterface.read_dtcs` (`for i in
range(1, len(response), 2)` with the guard `i + 1 < len(response)`),
applied to the response bytes after the status byte: pair big-endian
byte pairs, decode each, keep non-empty code strings, and drop a
trailing odd byte. -/
def parse_dtc_pairs : List ℕ → List String
  | b1 :: b2 :: rest =>
      let dtc_code := convert_raw_dtc ((b1 <<< 8) ||| b2)
      if dtc_code = "" then parse_dtc_pairs rest
      else dtc_code :: parse_dtc_pairs rest
  | _ => []

/-- The state update of `CanInterface.read_dtcs` on the ISO-TP response:
`active_dtcs` is replaced by the parsed list exactly when a response
arrived, is non-empty, and starts with `0x43`; otherwise it is left
unchanged.  `response = none` models both "not connected" (no request is
sent) and a request timeout. -/
def read_dtcs_update (response : Option (List ℕ)) (active_dtcs : List String) :
    List String :=
  match response with
  | some (b :: rest) => if b = 0x43 then parse_dtc_pairs rest else active_dtcs
  | _ => active_dtcs

/-- `CanInterface.clear_dtcs`: returns the success flag and the updated
`active_dtcs` list.  When connected, the Mode 04 request's response is
checked with `if response and response[0] == 0x44` (so a missing or empty
response fails); only on success is `active_dtcs` reset to `[]`.  When
not connected nothing is sent and the call fails. -/
def clear_dtcs (connected : Bool) (response : Option (List ℕ))
    (active_dtcs : List String) : Bool × List String :=
  if connected then
    match response with
    | some (b :: _) =>
        if b = 0x44 then (true, []) else (false, active_dtcs)
    | _ => (false, active_dtcs)
  else (false, active_dtcs)

/-- The total length declared by a First frame:
`((first_byte & 0x0F) << 8) + data[1]`. -/
def ffLength (data : List ℕ) : ℕ :=
  ((data.headD 0 &&& 0x0F) <<< 8) + data.getD 1 0

/-- The fresh `ReassemblyState` a First frame installs. -/
def ffState (data : List ℕ) : RState :=
  { data := data.drop 2
    expected_length := ffLength data
    remaining := (ffLength data : ℤ) - ((data.length : ℤ) - 2)
    last_seq := 0 }

/-- C10 invariant: the two dictionaries hold entries for exactly the same
keys. -/
def inSync (s : IsoTpState) : Prop :=
  ∀ k, (dlookup k s.receive_buffer).isSome = (dlookup k s.last_received).isSome

/-! ## Small arithmetic and string helpers -/

lemma or32_of_lt_16 {s : ℕ} (h : s < 16) :
    0x20 ||| s = 32 + s ∧ (0x20 ||| s) >>> 4 = 2 ∧ (0x20 ||| s) &&& 0x0F = s := by
  interval_cases s <;> exact ⟨rfl, rfl, rfl⟩

lemma or16_of_lt_16 {s : ℕ} (h : s < 16) :
    (0x10 ||| s) >>> 4 = 1 ∧ (0x10 ||| s) &&& 0x0F = s := by
  interval_cases s <;> exact ⟨rfl, rfl⟩

lemma repr_length_of_lt_16 (n : ℕ) (h : n < 16) :
    (Nat.repr n).length = if n ≤ 9 then 1 else 2 := by
  interval_cases n <;> rfl

/-! ## Dictionary lemmas -/

lemma dlookup_dinsert {α : Type} (k k' : ℕ) (v : α) (l : List (ℕ × α)) :
    dlookup k (dinsert k' v l) = if k' = k then some v else dlookup k l := by
  induction l with
  | nil => simp [dlookup, dinsert]
  | cons p rest ih =>
    obtain ⟨a, b⟩ := p
    by_cases hak : a = k'
    · subst hak
      by_cases h : a = k <;> simp [dlookup, dinsert, h]
    · by_cases h : a = k
      · subst h
        have hk'a : ¬ (k' = a) := fun hk => hak hk.symm
        simp [dinsert, if_neg hak, dlookup, hk'a]
      · simp [dlookup, dinsert, hak, h, ih]

lemma dlookup_derase {α : Type} (k k' : ℕ) (l : List (ℕ × α)) :
    dlookup k (derase k' l) = if k' = k then none else dlookup k l := by
  induction l with
  | nil => simp [dlookup, derase]
  | cons p rest ih =>
    obtain ⟨a, b⟩ := p
    by_cases hak : a = k'
    · subst hak
      by_cases h : a = k
      · subst h; simp [derase, ih]
      · simp [derase, dlookup, h, ih]
    · by_cases h : a = k
      · subst h
        have hk'a : ¬ (k' = a) := fun hk => hak hk.symm
        simp [derase, if_neg hak, dlookup, hk'a]
      · simp [derase, dlookup, hak, h, ih]

lemma dlookup_filter_of_true {α : Type} {p : ℕ × α → Bool} {k : ℕ}
    (l : List (ℕ × α)) (hp : ∀ v, p (k, v) = true) :
    dlookup k (l.filter p) = dlookup k l := by
  induction l with
  | nil => simp
  | cons q rest ih =>
    obtain ⟨a, b⟩ := q
    by_cases h : a = k
    · subst h; simp [List.filter, hp b, dlookup, ih]
    · cases hq : p (a, b) <;> simp [List.filter, hq, dlookup, h, ih]

lemma dlookup_filter_of_false {α : Type} {p : ℕ × α → Bool} {k : ℕ}
    (l : List (ℕ × α)) (hp : ∀ v, p (k, v) = false) :
    dlookup k (l.filter p) = none := by
  induction l with
  | nil => simp [dlookup]
  | cons q rest ih =>
    obtain ⟨a, b⟩ := q
    by_cases h : a = k
    · subst h; simp [List.filter, hp b, ih]
    · cases hq : p (a, b) <;> simp [List.filter, hq, dlookup, h, ih]

lemma dlookup_filter_some {α : Type} {p : ℕ × α → Bool} {k : ℕ} {v : α} :
    ∀ {l : List (ℕ × α)}, dlookup k (l.filter p) = some v → p (k, v) = true := by
  intro l
  induction l with
  | nil => simp [dlookup]
  | cons q rest ih =>
    obtain ⟨a, b⟩ := q
    cases hq : p (a, b) with
    | false => simp only [List.filter, hq]; exact ih
    | true =>
      simp only [List.filter, hq, dlookup]
      by_cases h : a = k
      · subst h
        intro hv
        simp only [if_pos rfl] at hv
        cases hv
        exact hq
      · rw [if_neg h]; exact ih

/-- Looking a key up in the `receive_buffer` after the timeout sweep:
the entry survives exactly when `keepKey` holds for it. -/
lemma dlookup_cleanup_buffer (now : ℤ) (s : IsoTpState) (k : ℕ) :
    dlookup k (cleanup_old_messages now s).receive_buffer =
      if keepKey now s.last_received k then dlookup k s.receive_buffer
      else none := by
  unfold cleanup_old_messages
  by_cases h : keepKey now s.last_received k
  · rw [if_pos h]
    exact dlookup_filter_of_true _ (fun _ => h)
  · rw [if_neg h]
    exact dlookup_filter_of_false _ (fun _ => Bool.not_eq_true _ ▸ (by
      simpa using h))

/-- Looking a key up in `last_received` after the timeout sweep. -/
lemma dlookup_cleanup_last (now : ℤ) (s : IsoTpState) (k : ℕ) :
    dlookup k (cleanup_old_messages now s).last_received =
      if keepKey now s.last_received k then dlookup k s.last_received
      else none := by
  unfold cleanup_old_messages
  by_cases h : keepKey now s.last_received k
  · rw [if_pos h]
    exact dlookup_filter_of_true _ (fun _ => h)
  · rw [if_neg h]
    exact dlookup_filter_of_false _ (fun _ => Bool.not_eq_true _ ▸ (by
      simpa using h))

lemma mem_map_fst_dinsert {α : Type} (x k : ℕ) (v : α) (l : List (ℕ × α)) :
    x ∈ (dinsert k v l).map Prod.fst ↔ x = k ∨ x ∈ l.map Prod.fst := by
  induction l with
  | nil => simp [dinsert, eq_comm]
  | cons p rest ih =>
    obtain ⟨a, b⟩ := p
    by_cases h : a = k
    · subst h
      have e : dinsert a v ((a, b) :: rest) = (a, v) :: rest := by
        simp [dinsert]
      rw [e]
      simp only [List.map_cons, List.mem_cons]
      tauto
    · have e : dinsert k v ((a, b) :: rest) = (a, b) :: dinsert k v rest := by
        simp [dinsert, h]
      rw [e, List.map_cons, List.map_cons, List.mem_cons, List.mem_cons, ih]
      tauto

lemma nodup_map_fst_dinsert {α : Type} (k : ℕ) (v : α) (l : List (ℕ × α))
    (h : (l.map Prod.fst).Nodup) : ((dinsert k v l).map Prod.fst).Nodup := by
  induction l with
  | nil => simp [dinsert]
  | cons p rest ih =>
    obtain ⟨a, b⟩ := p
    rw [List.map_cons, List.nodup_cons] at h
    by_cases hak : a = k
    · subst hak
      have e : dinsert a v ((a, b) :: rest) = (a, v) :: rest := by
        simp [dinsert]
      rw [e, List.map_cons, List.nodup_cons]
      exact h
    · have e : dinsert k v ((a, b) :: rest) = (a, b) :: dinsert k v rest := by
        simp [dinsert, hak]
      rw [e, List.map_cons, List.nodup_cons]
      refine ⟨?_, ih h.2⟩
      rw [mem_map_fst_dinsert]
      rintro (rfl | hx)
      · exact hak rfl
      · exact h.1 hx

lemma nodup_map_fst_filter {α : Type} (p : ℕ × α → Bool) (l : List (ℕ × α))
    (h : (l.map Prod.fst).Nodup) : ((l.filter p).map Prod.fst).Nodup :=
  h.sublist ((List.filter_sublist l).map Prod.fst)

/-! ## Branch equations for `process_received_frame` -/

lemma process_sf_eq (now : ℤ) (arb_id : ℕ) (data : List ℕ) (s : IsoTpState)
    (h : data.headD 0 >>> 4 = 0) :
    process_received_frame now arb_id data s =
      (some (arb_id, (data.drop 1).take (data.headD 0 &&& 0x0F)),
       cleanup_old_messages now s) := by
  simp only [process_received_frame, if_pos h]

lemma process_ff_eq (now : ℤ) (arb_id : ℕ) (data : List ℕ) (s : IsoTpState)
    (h : data.headD 0 >>> 4 = 1) :
    process_received_frame now arb_id data s =
      (none,
       { receive_buffer :=
           dinsert arb_id (ffState data)
             (cleanup_old_messages now s).receive_buffer
         last_received :=
           dinsert arb_id now (cleanup_old_messages now s).last_received }) := by
  have h0 : ¬ (data.headD 0 >>> 4 = 0) := by omega
  simp only [process_received_frame, if_neg h0, if_pos h]
  rfl

lemma process_cf_none_eq (now : ℤ) (arb_id : ℕ) (data : List ℕ) (s : IsoTpState)
    (h : data.headD 0 >>> 4 = 2)
    (hn : dlookup arb_id (cleanup_old_messages now s).receive_buffer = none) :
    process_received_frame now arb_id data s =
      (none, cleanup_old_messages now s) := by
  have h0 : ¬ (data.headD 0 >>> 4 = 0) := by omega
  have h1 : ¬ (data.headD 0 >>> 4 = 1) := by omega
  simp only [process_received_frame, if_neg h0, if_neg h1, if_pos h, hn]

lemma process_cf_badseq_eq (now : ℤ) (arb_id : ℕ) (data : List ℕ)
    (s : IsoTpState) (st : RState)
    (h : data.headD 0 >>> 4 = 2)
    (hst : dlookup arb_id (cleanup_old_messages now s).receive_buffer = some st)
    (hseq : data.headD 0 &&& 0x0F ≠ (st.last_seq + 1) % 16) :
    process_received_frame now arb_id data s =
      (none,
       { receive_buffer :=
           derase arb_id (cleanup_old_messages now s).receive_buffer
         last_received :=
           derase arb_id (cleanup_old_messages now s).last_received }) := by
  have h0 : ¬ (data.headD 0 >>> 4 = 0) := by omega
  have h1 : ¬ (data.headD 0 >>> 4 = 1) := by omega
  simp only [process_received_frame, if_neg h0, if_neg h1, if_pos h, hst,
    if_pos hseq]

lemma process_cf_complete_eq (now : ℤ) (arb_id : ℕ) (data : List ℕ)
    (s : IsoTpState) (st : RState)
    (h : data.headD 0 >>> 4 = 2)
    (hst : dlookup arb_id (cleanup_old_messages now s).receive_buffer = some st)
    (hseq : data.headD 0 &&& 0x0F = (st.last_seq + 1) % 16)
    (hrem : st.remaining - ((data.length : ℤ) - 1) ≤ 0) :
    process_received_frame now arb_id data s =
      (some (arb_id, st.data ++ data.drop 1),
       { receive_buffer :=
           derase arb_id (cleanup_old_messages now s).receive_buffer
         last_received :=
           derase arb_id (cleanup_old_messages now s).last_received }) := by
  have h0 : ¬ (data.headD 0 >>> 4 = 0) := by omega
  have h1 : ¬ (data.headD 0 >>> 4 = 1) := by omega
  simp only [process_received_frame, if_neg h0, if_neg h1, if_pos h, hst]
  rw [if_neg (by simpa using hseq), if_pos hrem]

lemma process_cf_incomplete_eq (now : ℤ) (arb_id : ℕ) (data : List ℕ)
    (s : IsoTpState) (st : RState)
    (h : data.headD 0 >>> 4 = 2)
    (hst : dlookup arb_id (cleanup_old_messages now s).receive_buffer = some st)
    (hseq : data.headD 0 &&& 0x0F = (st.last_seq + 1) % 16)
    (hrem : ¬ (st.remaining - ((data.length : ℤ) - 1) ≤ 0)) :
    process_received_frame now arb_id data s =
      (none,
       { receive_buffer :=
           dinsert arb_id
             { data := st.data ++ data.drop 1
               expected_length := st.expected_length
               remaining := st.remaining - ((data.length : ℤ) - 1)
               last_seq := data.headD 0 &&& 0x0F }
             (cleanup_old_messages now s).receive_buffer
         last_received :=
           dinsert arb_id now (cleanup_old_messages now s).last_received }) := by
  have h0 : ¬ (data.headD 0 >>> 4 = 0) := by omega
  have h1 : ¬ (data.headD 0 >>> 4 = 1) := by omega
  simp only [process_received_frame, if_neg h0, if_neg h1, if_pos h, hst]
  rw [if_neg (by simpa using hseq), if_neg hrem]

lemma process_unknown_eq (now : ℤ) (arb_id : ℕ) (data : List ℕ)
    (s : IsoTpState)
    (h0 : ¬ (data.headD 0 >>> 4 = 0)) (h1 : ¬ (data.headD 0 >>> 4 = 1))
    (h2 : ¬ (data.headD 0 >>> 4 = 2)) :
    process_received_frame now arb_id data s =
      (none, cleanup_old_messages now s) := by
  simp only [process_received_frame, if_neg h0, if_neg h1, if_neg h2]

/-- Every `last_received` timestamp that survives the sweep is fresh. -/
lemma cleanup_last_fresh (now : ℤ) (s : IsoTpState) (k : ℕ) (t : ℤ)
    (h : dlookup k (cleanup_old_messages now s).last_received = some t) :
    now - t ≤ isoTimeout := by
  have hkeep : keepKey now s.last_received k = true := by
    have := dlookup_filter_some (p := fun p => keepKey now s.last_received p.1)
      (l := s.last_received) (by simpa [cleanup_old_messages] using h)
    simpa using this
  rw [dlookup_cleanup_last, if_pos hkeep] at h
  unfold keepKey at hkeep
  rw [h] at hkeep
  exact of_decide_eq_true hkeep

/-! ## Claims -/

/-- C1: the round-trip claim fails in the code.  Encoding the 8-byte
payload `[1,…,8]` with `create_send_frames` and feeding the two emitted
frames in order to `process_received_frame` (fresh store, same channel
identifier `0x7E0`, no intervening timeout) delivers exactly one complete
message — but its bytes are the original payload followed by the five
`0xCC` padding bytes of the final Consecutive frame (the receiver
accumulates `data[1:]` wholesale and never truncates to
`expected_length`), so the delivered bytes are not the original payload. -/
theorem C1_roundtrip_length8_keeps_padding :
    (feedAll 0 0x7E0 (create_send_frames [1, 2, 3, 4, 5, 6, 7, 8]) IsoTpState.empty).1
      = [(0x7E0, [1, 2, 3, 4, 5, 6, 7, 8, 0xCC, 0xCC, 0xCC, 0xCC, 0xCC])] ∧
    (feedAll 0 0x7E0 (create_send_frames [1, 2, 3, 4, 5, 6, 7, 8]) IsoTpState.empty).1
      ≠ [(0x7E0, [1, 2, 3, 4, 5, 6, 7, 8])] := by
  constructor
  · rfl
  · decide

/-- C2 (counterexample): for the raw value `0x0A00` the second digit
field is `10`, which the f-string renders as the two characters `"10"`;
the decoder returns `"P01000"`, which is 6 characters long, not 5. -/
theorem C2_five_chars_counterexample :
    ¬ ((convert_raw_dtc 0x0A00).length = 5) := by
  decide

/-- C2 (amended): for every raw value, `_convert_raw_dtc` returns the
letter chosen by bits 15–14 followed by the decimal renderings of the
four digit fields (values above 9 render as-is, as two characters, with
no rejection or clamping); the result is exactly 5 characters long if
and only if each of the three low digit fields (bits 11–8, 7–4, 3–0) is
at most 9 (the first digit field, bits 13–12, is always at most 3). -/
theorem C2_length_five_iff_digits_small (raw : ℕ) :
    (convert_raw_dtc raw).length = 5 ↔
      ((raw >>> 8) &&& 0x0F ≤ 9 ∧ (raw >>> 4) &&& 0x0F ≤ 9 ∧ raw &&& 0x0F ≤ 9) := by
  have hb : ∀ m : ℕ, m &&& 0x0F < 16 := fun m => Nat.lt_succ_of_le Nat.and_le_right
  have h1 : (raw >>> 12) &&& 0x03 ≤ 3 := Nat.and_le_right
  have e1 : (Nat.repr ((raw >>> 12) &&& 0x03)).length = 1 := by
    rw [repr_length_of_lt_16 _ (by omega), if_pos (by omega)]
  have elet : (String.mk [dtcLetters.getD ((raw >>> 14) &&& 0x03) 'P']).length = 1 :=
    rfl
  simp only [convert_raw_dtc, String.length_append, elet, e1,
    repr_length_of_lt_16 _ (hb (raw >>> 8)), repr_length_of_lt_16 _ (hb (raw >>> 4)),
    repr_length_of_lt_16 _ (hb raw)]
  split_ifs <;> omega

/-- C5: the raw value `0x0123` decodes to `"P0123"`, and the Mode 03
response payload `[0x43, 0x01, 0x23, 0x01, 0x20]` (iterated from offset 1
in big-endian byte pairs) replaces the active-code set — whatever it held
before — with exactly `["P0123", "P0120"]`. -/
theorem C5_dtc_decode :
    convert_raw_dtc 0x0123 = "P0123" ∧
    ∀ active, read_dtcs_update (some [0x43, 0x01, 0x23, 0x01, 0x20]) active
      = ["P0123", "P0120"] :=
  ⟨by decide, fun _ => rfl⟩

/-- C6: `clear_dtcs` reports success exactly when it is connected and the
received response starts with the byte `0x44`; on success the active-code
set is emptied, and on any failure (no response, empty response, wrong
first byte, or not connected) it is left unchanged. -/
theorem C6_clear_success_iff (connected : Bool) (response : Option (List ℕ))
    (active : List String) :
    ((clear_dtcs connected response active).1 = true ↔
      connected = true ∧ ∃ rest, response = some (0x44 :: rest)) ∧
    ((clear_dtcs connected response active).2 =
      if (clear_dtcs connected response active).1 then [] else active) := by
  cases connected with
  | false => simp [clear_dtcs]
  | true =>
    cases response with
    | none => simp [clear_dtcs]
    | some r =>
      cases r with
      | nil => simp [clear_dtcs]
      | cons b rest =>
        by_cases hb : b = 0x44
        · subst hb; simp [clear_dtcs]
        · simp [clear_dtcs, hb]

/-- C7: a payload of length 7 encodes to exactly one frame whose first
byte is `0x07` (Single frame, length in the lower nibble, no padding
needed), while a payload of length 8 encodes to exactly two frames: a
First frame `0x10, 0x08` carrying the declared length and the first 6
payload bytes, followed by exactly one Consecutive frame with sequence
number 1 carrying the remaining 2 bytes plus `0xCC` padding. -/
theorem C7_single_multi_boundary (d7 d8 : List ℕ)
    (h7 : d7.length = 7) (h8 : d8.length = 8) :
    create_send_frames d7 = [0x07 :: d7] ∧
    create_send_frames d8 =
      [0x10 :: 0x08 :: d8.take 6,
       0x21 :: (d8.drop 6 ++ [0xCC, 0xCC, 0xCC, 0xCC, 0xCC])] := by
  constructor
  · simp [create_send_frames, h7]
  · have hd : (d8.drop 6).length = 2 := by simp [h8]
    have hne : d8.drop 6 ≠ [] := by
      intro h; rw [h] at hd; simp at hd
    have ht : (d8.drop 6).take 7 = d8.drop 6 := List.take_of_length_le (by omega)
    have hdd : (d8.drop 6).drop 7 = [] := by
      rw [List.drop_drop]; apply List.drop_eq_nil_of_le; omega
    simp only [create_send_frames, h8]
    rw [if_neg (by omega)]
    rw [consecutiveFrames_eq, if_neg hne, ht, hdd, hd]
    norm_num [consecutiveFrames, consecutiveFramesAux]
    decide

/-- C7 witness: the boundary behaviour evaluated on the concrete payloads
`[1,…,7]` and `[1,…,8]`. -/
theorem C7_single_multi_boundary_witness :
    create_send_frames [1, 2, 3, 4, 5, 6, 7] = [0x07 :: [1, 2, 3, 4, 5, 6, 7]] ∧
    create_send_frames [1, 2, 3, 4, 5, 6, 7, 8] =
      [0x10 :: 0x08 :: ([1, 2, 3, 4, 5, 6, 7, 8] : List ℕ).take 6,
       0x21 :: (([1, 2, 3, 4, 5, 6, 7, 8] : List ℕ).drop 6
          ++ [0xCC, 0xCC, 0xCC, 0xCC, 0xCC])] :=
  C7_single_multi_boundary [1, 2, 3, 4, 5, 6, 7] [1, 2, 3, 4, 5, 6, 7, 8]
    (by decide) (by decide)

/-- C10: `receive_buffer` and `last_received` are kept in lockstep — if
they hold entries for the same identifiers before a
`process_received_frame` call, they do so after it, whatever the frame
(single, first, consecutive with or without matching state, sequence
error, completion, unknown) and whatever the timeout sweep removes. -/
theorem C10_lockstep (s : IsoTpState) (now : ℤ) (arb_id : ℕ) (data : List ℕ)
    (h : inSync s) : inSync (process_received_frame now arb_id data s).2 := by
  have hc : inSync (cleanup_old_messages now s) := by
    intro k
    rw [dlookup_cleanup_buffer, dlookup_cleanup_last]
    by_cases hk : keepKey now s.last_received k
    · rw [if_pos hk, if_pos hk]; exact h k
    · rw [if_neg hk, if_neg hk]; rfl
  by_cases h0 : data.headD 0 >>> 4 = 0
  · rw [process_sf_eq now arb_id data s h0]
    exact hc
  · by_cases h1 : data.headD 0 >>> 4 = 1
    · rw [process_ff_eq now arb_id data s h1]
      intro k
      simp only [dlookup_dinsert]
      by_cases hk : arb_id = k
      · rw [if_pos hk, if_pos hk]; rfl
      · rw [if_neg hk, if_neg hk]; exact hc k
    · by_cases h2 : data.headD 0 >>> 4 = 2
      · cases hlk : dlookup arb_id (cleanup_old_messages now s).receive_buffer with
        | none =>
          rw [process_cf_none_eq now arb_id data s h2 hlk]
          exact hc
        | some st =>
          by_cases hseq : (data.headD 0 &&& 0x0F) = (st.last_seq + 1) % 16
          · by_cases hrem : st.remaining - ((data.length : ℤ) - 1) ≤ 0
            · rw [process_cf_complete_eq now arb_id data s st h2 hlk hseq hrem]
              intro k
              simp only [dlookup_derase]
              by_cases hk : arb_id = k
              · rw [if_pos hk, if_pos hk]; rfl
              · rw [if_neg hk, if_neg hk]; exact hc k
            · rw [process_cf_incomplete_eq now arb_id data s st h2 hlk hseq hrem]
              intro k
              simp only [dlookup_dinsert]
              by_cases hk : arb_id = k
              · rw [if_pos hk, if_pos hk]; rfl
              · rw [if_neg hk, if_neg hk]; exact hc k
          · rw [process_cf_badseq_eq now arb_id data s st h2 hlk hseq]
            intro k
            simp only [dlookup_derase]
            by_cases hk : arb_id = k
            · rw [if_pos hk, if_pos hk]; rfl
            · rw [if_neg hk, if_neg hk]; exact hc k
      · rw [process_unknown_eq now arb_id data s h0 h1 h2]
        exact hc

/-- C10 witness: the lockstep invariant instantiated on the empty store
after one First frame, checked at the frame's own identifier. -/
theorem C10_lockstep_witness :
    (dlookup 3 ((process_received_frame 0 3 [0x10, 0x05, 1, 2, 3, 4, 5, 6]
        IsoTpState.empty).2.receive_buffer)).isSome =
    (dlookup 3 ((process_received_frame 0 3 [0x10, 0x05, 1, 2, 3, 4, 5, 6]
        IsoTpState.empty).2.last_received)).isSome :=
  C10_lockstep IsoTpState.empty 0 3 [0x10, 0x05, 1, 2, 3, 4, 5, 6] (fun _ => rfl) 3

/-- C9: dictionary keying gives at most one in-progress state per
identifier (no duplicate keys arise), and a First frame received while a
state for the same identifier is already in progress returns nothing and
silently replaces that state with a fresh one — accumulated bytes are the
frame bytes after the two length bytes, `remaining` is the declared total
length minus the bytes already stored, and `last_seq` is 0. -/
theorem C9_first_frame_replaces (s : IsoTpState) (now : ℤ) (arb_id : ℕ)
    (data : List ℕ) (st : RState)
    (hff : data.headD 0 >>> 4 = 1)
    (hst : dlookup arb_id s.receive_buffer = some st)
    (hnd : (s.receive_buffer.map Prod.fst).Nodup) :
    (process_received_frame now arb_id data s).1 = none ∧
    dlookup arb_id (process_received_frame now arb_id data s).2.receive_buffer
      = some (ffState data) ∧
    dlookup arb_id (process_received_frame now arb_id data s).2.last_received
      = some now ∧
    ((process_received_frame now arb_id data s).2.receive_buffer.map
        Prod.fst).Nodup := by
  rw [process_ff_eq now arb_id data s hff]
  refine ⟨rfl, ?_, ?_, ?_⟩
  · rw [dlookup_dinsert, if_pos rfl]
  · rw [dlookup_dinsert, if_pos rfl]
  · exact nodup_map_fst_dinsert _ _ _
      (nodup_map_fst_filter _ _ hnd)

/-- C9 witness: a store already holding a state for identifier 5 receives
a fresh First frame declaring 10 bytes; the old state is replaced by the
fresh one. -/
theorem C9_first_frame_replaces_witness :
    (process_received_frame 0 5 [0x10, 0x0A, 9, 9, 9, 9, 9, 9]
        ⟨[(5, ⟨[1, 2], 10, 4, 0⟩)], [(5, 0)]⟩).1 = none ∧
    dlookup 5 (process_received_frame 0 5 [0x10, 0x0A, 9, 9, 9, 9, 9, 9]
        ⟨[(5, ⟨[1, 2], 10, 4, 0⟩)], [(5, 0)]⟩).2.receive_buffer
      = some ⟨[9, 9, 9, 9, 9, 9], 10, 4, 0⟩ :=
  ⟨(C9_first_frame_replaces ⟨[(5, ⟨[1, 2], 10, 4, 0⟩)], [(5, 0)]⟩ 0 5
      [0x10, 0x0A, 9, 9, 9, 9, 9, 9] ⟨[1, 2], 10, 4, 0⟩ rfl rfl
      (by decide)).1,
   (C9_first_frame_replaces ⟨[(5, ⟨[1, 2], 10, 4, 0⟩)], [(5, 0)]⟩ 0 5
      [0x10, 0x0A, 9, 9, 9, 9, 9, 9] ⟨[1, 2], 10, 4, 0⟩ rfl rfl
      (by decide)).2.1⟩

/-- C3: after a valid First frame for a channel identifier, a Consecutive
frame whose sequence number differs from `(last_sequence + 1) % 16 = 1`
removes the in-progress state and returns nothing; a subsequently fed
Consecutive frame with the originally correct sequence number 1 is then
ignored (returns nothing, creates no state for that identifier); and a
fresh First frame for that identifier then starts a new reassembly whose
stored state is exactly the one it would create on an empty store. -/
theorem C3_sequence_error_discards (s : IsoTpState) (t0 t1 t2 t3 : ℤ)
    (arb_id : ℕ) (ff cfW cfC ff2 : List ℕ)
    (hff : ff.headD 0 >>> 4 = 1)
    (hW2 : cfW.headD 0 >>> 4 = 2) (hWseq : cfW.headD 0 &&& 0x0F ≠ 1)
    (hC2 : cfC.headD 0 >>> 4 = 2)
    (hfresh : t1 - t0 ≤ isoTimeout)
    (hff2 : ff2.headD 0 >>> 4 = 1) :
    (process_received_frame t1 arb_id cfW
        (process_received_frame t0 arb_id ff s).2).1 = none ∧
    dlookup arb_id (process_received_frame t1 arb_id cfW
        (process_received_frame t0 arb_id ff s).2).2.receive_buffer = none ∧
    dlookup arb_id (process_received_frame t1 arb_id cfW
        (process_received_frame t0 arb_id ff s).2).2.last_received = none ∧
    (process_received_frame t2 arb_id cfC
        (process_received_frame t1 arb_id cfW
          (process_received_frame t0 arb_id ff s).2).2).1 = none ∧
    dlookup arb_id (process_received_frame t2 arb_id cfC
        (process_received_frame t1 arb_id cfW
          (process_received_frame t0 arb_id ff s).2).2).2.receive_buffer = none ∧
    dlookup arb_id (process_received_frame t3 arb_id ff2
        (process_received_frame t2 arb_id cfC
          (process_received_frame t1 arb_id cfW
            (process_received_frame t0 arb_id ff s).2).2).2).2.receive_buffer =
      dlookup arb_id (process_received_frame t3 arb_id ff2
        IsoTpState.empty).2.receive_buffer := by
  have hs1 : (process_received_frame t0 arb_id ff s).2 =
      { receive_buffer :=
          dinsert arb_id (ffState ff) (cleanup_old_messages t0 s).receive_buffer
        last_received :=
          dinsert arb_id t0 (cleanup_old_messages t0 s).last_received } := by
    rw [process_ff_eq t0 arb_id ff s hff]
  have hkeep : keepKey t1 (dinsert arb_id t0
      (cleanup_old_messages t0 s).last_received) arb_id = true := by
    unfold keepKey
    rw [dlookup_dinsert, if_pos rfl]
    simpa using hfresh
  have hlook : dlookup arb_id (cleanup_old_messages t1
      { receive_buffer :=
          dinsert arb_id (ffState ff) (cleanup_old_messages t0 s).receive_buffer
        last_received :=
          dinsert arb_id t0 (cleanup_old_messages t0 s).last_received
        : IsoTpState }).receive_buffer = some (ffState ff) := by
    rw [dlookup_cleanup_buffer]
    simp only [hkeep, if_true]
    rw [dlookup_dinsert, if_pos rfl]
  have hseq : cfW.headD 0 &&& 0x0F ≠ ((ffState ff).last_seq + 1) % 16 := by
    simpa [ffState] using hWseq
  rw [hs1]
  rw [process_cf_badseq_eq t1 arb_id cfW _ (ffState ff) hW2 hlook hseq]
  -- the state after the discarded reassembly
  have hb2 : ∀ u : ℤ, dlookup arb_id (cleanup_old_messages u
      { receive_buffer :=
          derase arb_id (cleanup_old_messages t1
            { receive_buffer :=
                dinsert arb_id (ffState ff)
                  (cleanup_old_messages t0 s).receive_buffer
              last_received :=
                dinsert arb_id t0 (cleanup_old_messages t0 s).last_received
              : IsoTpState }).receive_buffer
        last_received :=
          derase arb_id (cleanup_old_messages t1
            { receive_buffer :=
                dinsert arb_id (ffState ff)
                  (cleanup_old_messages t0 s).receive_buffer
              last_received :=
                dinsert arb_id t0 (cleanup_old_messages t0 s).last_received
              : IsoTpState }).last_received
        : IsoTpState }).receive_buffer = none := by
    intro u
    rw [dlookup_cleanup_buffer]
    split_ifs
    · rw [dlookup_derase, if_pos rfl]
    · rfl
  rw [process_cf_none_eq t2 arb_id cfC _ hC2 (hb2 t2)]
  rw [process_ff_eq t3 arb_id ff2 _ hff2, process_ff_eq t3 arb_id ff2 _ hff2]
  refine ⟨rfl, ?_, ?_, rfl, hb2 t2, ?_⟩
  · rw [dlookup_derase, if_pos rfl]
  · rw [dlookup_derase, if_pos rfl]
  · rw [dlookup_dinsert, if_pos rfl, dlookup_dinsert, if_pos rfl]


/-- C3 witness: the discard scenario evaluated concretely — channel 5,
First frame declaring 10 bytes, wrong-sequence Consecutive frame (seq 3),
then the originally correct Consecutive frame (seq 1), then a fresh First
frame, all at time 0. -/
theorem C3_sequence_error_discards_witness :
    (process_received_frame 0 5 [0x23, 9, 9, 9, 9, 9, 9, 9]
        (process_received_frame 0 5 [0x10, 0x0A, 1, 2, 3, 4, 5, 6]
          IsoTpState.empty).2).1 = none ∧
    dlookup 5 (process_received_frame 0 5 [0x23, 9, 9, 9, 9, 9, 9, 9]
        (process_received_frame 0 5 [0x10, 0x0A, 1, 2, 3, 4, 5, 6]
          IsoTpState.empty).2).2.receive_buffer = none ∧
    dlookup 5 (process_received_frame 0 5 [0x23, 9, 9, 9, 9, 9, 9, 9]
        (process_received_frame 0 5 [0x10, 0x0A, 1, 2, 3, 4, 5, 6]
          IsoTpState.empty).2).2.last_received = none ∧
    (process_received_frame 0 5 [0x21, 9, 9, 9, 9, 9, 9, 9]
        (process_received_frame 0 5 [0x23, 9, 9, 9, 9, 9, 9, 9]
          (process_received_frame 0 5 [0x10, 0x0A, 1, 2, 3, 4, 5, 6]
            IsoTpState.empty).2).2).1 = none ∧
    dlookup 5 (process_received_frame 0 5 [0x21, 9, 9, 9, 9, 9, 9, 9]
        (process_received_frame 0 5 [0x23, 9, 9, 9, 9, 9, 9, 9]
          (process_received_frame 0 5 [0x10, 0x0A, 1, 2, 3, 4, 5, 6]
            IsoTpState.empty).2).2).2.receive_buffer = none ∧
    dlookup 5 (process_received_frame 0 5 [0x10, 0x0A, 7, 7, 7, 7, 7, 7]
        (process_received_frame 0 5 [0x21, 9, 9, 9, 9, 9, 9, 9]
          (process_received_frame 0 5 [0x23, 9, 9, 9, 9, 9, 9, 9]
            (process_received_frame 0 5 [0x10, 0x0A, 1, 2, 3, 4, 5, 6]
              IsoTpState.empty).2).2).2).2.receive_buffer =
      dlookup 5 (process_received_frame 0 5 [0x10, 0x0A, 7, 7, 7, 7, 7, 7]
        IsoTpState.empty).2.receive_buffer :=
  C3_sequence_error_discards IsoTpState.empty 0 0 0 0 5
    [0x10, 0x0A, 1, 2, 3, 4, 5, 6] [0x23, 9, 9, 9, 9, 9, 9, 9]
    [0x21, 9, 9, 9, 9, 9, 9, 9] [0x10, 0x0A, 7, 7, 7, 7, 7, 7]
    (by decide) (by decide) (by decide) (by decide) (by decide) (by decide)

/-- C4: (1) after any `process_received_frame` call at time `now`, every
timestamp still recorded in `last_received` is at most `isoTimeout` old —
the sweep removed every in-progress state whose age exceeded the timeout
before the frame was processed, and states touched by the frame carry
timestamp `now`; (2) consequently a First frame followed by no further
frame for longer than the timeout leaves no state: feeding any unrelated
frame (different identifier) after the timeout finds and leaves no state
for the original identifier. -/
theorem C4_timeout_sweep :
    (∀ (s : IsoTpState) (now : ℤ) (arb_id : ℕ) (data : List ℕ) (k : ℕ) (t : ℤ),
        dlookup k ((process_received_frame now arb_id data s).2.last_received)
          = some t → now - t ≤ isoTimeout) ∧
    (∀ (arb_id : ℕ) (ff : List ℕ) (t0 : ℤ) (arb2 : ℕ) (fd : List ℕ) (t1 : ℤ),
        ff.headD 0 >>> 4 = 1 → isoTimeout < t1 - t0 → arb2 ≠ arb_id →
        dlookup arb_id ((process_received_frame t1 arb2 fd
            ((process_received_frame t0 arb_id ff IsoTpState.empty).2)).2
          ).receive_buffer = none ∧
        dlookup arb_id ((process_received_frame t1 arb2 fd
            ((process_received_frame t0 arb_id ff IsoTpState.empty).2)).2
          ).last_received = none) := by
  constructor
  · intro s now arb_id data k t h
    by_cases h0 : data.headD 0 >>> 4 = 0
    · rw [process_sf_eq now arb_id data s h0] at h
      exact cleanup_last_fresh now s k t h
    · by_cases h1 : data.headD 0 >>> 4 = 1
      · rw [process_ff_eq now arb_id data s h1] at h
        rw [dlookup_dinsert] at h
        by_cases hk : arb_id = k
        · rw [if_pos hk] at h
          cases h
          unfold isoTimeout
          omega
        · rw [if_neg hk] at h
          exact cleanup_last_fresh now s k t h
      · by_cases h2 : data.headD 0 >>> 4 = 2
        · cases hlk : dlookup arb_id (cleanup_old_messages now s).receive_buffer with
          | none =>
            rw [process_cf_none_eq now arb_id data s h2 hlk] at h
            exact cleanup_last_fresh now s k t h
          | some st =>
            by_cases hseq : (data.headD 0 &&& 0x0F) = (st.last_seq + 1) % 16
            · by_cases hrem : st.remaining - ((data.length : ℤ) - 1) ≤ 0
              · rw [process_cf_complete_eq now arb_id data s st h2 hlk hseq hrem,
                  dlookup_derase] at h
                by_cases hk : arb_id = k
                · rw [if_pos hk] at h; exact Option.noConfusion h
                · rw [if_neg hk] at h
                  exact cleanup_last_fresh now s k t h
              · rw [process_cf_incomplete_eq now arb_id data s st h2 hlk hseq hrem,
                  dlookup_dinsert] at h
                by_cases hk : arb_id = k
                · rw [if_pos hk] at h
                  cases h
                  unfold isoTimeout
                  omega
                · rw [if_neg hk] at h
                  exact cleanup_last_fresh now s k t h
            · rw [process_cf_badseq_eq now arb_id data s st h2 hlk hseq,
                dlookup_derase] at h
              by_cases hk : arb_id = k
              · rw [if_pos hk] at h; exact Option.noConfusion h
              · rw [if_neg hk] at h
                exact cleanup_last_fresh now s k t h
        · rw [process_unknown_eq now arb_id data s h0 h1 h2] at h
          exact cleanup_last_fresh now s k t h
  · intro arb_id ff t0 arb2 fd t1 hff hold harb
    have hs1 : (process_received_frame t0 arb_id ff IsoTpState.empty).2 =
        ⟨[(arb_id, ffState ff)], [(arb_id, t0)]⟩ := by
      rw [process_ff_eq t0 arb_id ff IsoTpState.empty hff]
      rfl
    rw [hs1]
    have hl : dlookup arb_id ([(arb_id, t0)] : List (ℕ × ℤ)) = some t0 := by
      simp [dlookup]
    have hkf : keepKey t1 ([(arb_id, t0)] : List (ℕ × ℤ)) arb_id = false := by
      unfold keepKey
      rw [hl]
      simp only [decide_eq_false_iff_not]
      unfold isoTimeout at hold ⊢
      omega
    have hclean : cleanup_old_messages t1
        (⟨[(arb_id, ffState ff)], [(arb_id, t0)]⟩ : IsoTpState) =
        IsoTpState.empty := by
      unfold cleanup_old_messages
      simp only [List.filter_cons, hkf, List.filter_nil]
      rfl
    by_cases h0 : fd.headD 0 >>> 4 = 0
    · rw [process_sf_eq t1 arb2 fd _ h0, hclean]
      exact ⟨rfl, rfl⟩
    · by_cases h1 : fd.headD 0 >>> 4 = 1
      · rw [process_ff_eq t1 arb2 fd _ h1, hclean]
        constructor
        · rw [dlookup_dinsert, if_neg harb]; rfl
        · rw [dlookup_dinsert, if_neg harb]; rfl
      · by_cases h2 : fd.headD 0 >>> 4 = 2
        · have hn : dlookup arb2 (cleanup_old_messages t1
              (⟨[(arb_id, ffState ff)], [(arb_id, t0)]⟩ : IsoTpState)
            ).receive_buffer = none := by
            rw [hclean]; rfl
          rw [process_cf_none_eq t1 arb2 fd _ h2 hn, hclean]
          exact ⟨rfl, rfl⟩
        · rw [process_unknown_eq t1 arb2 fd _ h0 h1 h2, hclean]
          exact ⟨rfl, rfl⟩

/-- C4 witness: part (1) applied to a First frame on the empty store fed
at time 0 and looked up immediately, and part (2) applied to a First
frame at time 0 followed by an unrelated Single frame at time 2. -/
theorem C4_timeout_sweep_witness :
    ((0 : ℤ) - 0 ≤ isoTimeout) ∧
    (dlookup 5 ((process_received_frame 2 7 [0x05, 1, 2, 3, 4, 5]
        ((process_received_frame 0 5 [0x10, 0x0A, 1, 2, 3, 4, 5, 6]
          IsoTpState.empty).2)).2).receive_buffer = none ∧
     dlookup 5 ((process_received_frame 2 7 [0x05, 1, 2, 3, 4, 5]
        ((process_received_frame 0 5 [0x10, 0x0A, 1, 2, 3, 4, 5, 6]
          IsoTpState.empty).2)).2).last_received = none) :=
  ⟨C4_timeout_sweep.1 IsoTpState.empty 0 1 [0x10, 0x05, 9, 9, 9, 9, 9, 9] 1 0
      (by decide),
   C4_timeout_sweep.2 5 [0x10, 0x0A, 1, 2, 3, 4, 5, 6] 0 7 [0x05, 1, 2, 3, 4, 5] 2
      (by decide) (by decide) (by decide)⟩

lemma consecutiveFramesAux_nil (f s : ℕ) : consecutiveFramesAux f [] s = [] := by
  cases f <;> rfl

lemma and15_of_lt (s : ℕ) (h : s < 16) : s &&& 0x0F = s :=
  (Nat.and_pow_two_sub_one_eq_mod s 4).trans (Nat.mod_eq_of_lt h)

lemma cleanup_fresh (now : ℤ) (arb : ℕ) (st : RState) :
    cleanup_old_messages now ⟨[(arb, st)], [(arb, now)]⟩ =
      ⟨[(arb, st)], [(arb, now)]⟩ := by
  have hkt : keepKey now [(arb, now)] arb = true := by
    unfold keepKey
    rw [show dlookup arb [(arb, now)] = some now from by simp [dlookup]]
    simp only [decide_eq_true_eq]
    unfold isoTimeout
    omega
  unfold cleanup_old_messages
  simp [List.filter_cons, hkt]

lemma consecutiveFramesAux_length (fuel : ℕ) :
    ∀ (rem : List ℕ) (seq : ℕ), rem.length ≤ fuel →
      (consecutiveFramesAux fuel rem seq).length = (rem.length + 6) / 7 := by
  induction fuel with
  | zero =>
    intro rem seq h
    have : rem = [] := List.eq_nil_of_length_eq_zero (Nat.le_zero.mp h)
    subst this
    rfl
  | succ f ih =>
    intro rem seq h
    by_cases hrem : rem = []
    · subst hrem; rfl
    · have hlen : 0 < rem.length := List.length_pos.mpr hrem
      simp only [consecutiveFramesAux, if_neg hrem, List.length_cons]
      rw [ih (rem.drop 7) ((seq + 1) % 16) (by simp [List.length_drop]; omega)]
      simp only [List.length_drop]
      omega

lemma consecutiveFramesAux_head (i : ℕ) :
    ∀ (fuel : ℕ) (rem : List ℕ) (seq : ℕ), rem.length ≤ fuel → seq < 16 →
      i < (consecutiveFramesAux fuel rem seq).length →
      ((consecutiveFramesAux fuel rem seq).getD i []).headD 0
        = 0x20 ||| ((seq + i) % 16) := by
  induction i with
  | zero =>
    intro fuel rem seq hf hseq hi
    cases fuel with
    | zero => simp [consecutiveFramesAux] at hi
    | succ f =>
      by_cases hrem : rem = []
      · subst hrem; simp [consecutiveFramesAux] at hi
      · simp only [consecutiveFramesAux, if_neg hrem, List.getD_cons_zero,
          List.headD, Nat.add_zero]
        rw [and15_of_lt seq hseq, Nat.mod_eq_of_lt hseq]
        rfl
  | succ i ih =>
    intro fuel rem seq hf hseq hi
    cases fuel with
    | zero => simp [consecutiveFramesAux] at hi
    | succ f =>
      by_cases hrem : rem = []
      · subst hrem; simp [consecutiveFramesAux] at hi
      · simp only [consecutiveFramesAux, if_neg hrem, List.getD_cons_succ]
        have hlen : 0 < rem.length := List.length_pos.mpr hrem
        rw [ih f (rem.drop 7) ((seq + 1) % 16)
          (by simp [List.length_drop]; omega) (Nat.mod_lt _ (by omega))
          (by
            have := hi
            simp only [consecutiveFramesAux, if_neg hrem, List.length_cons] at this
            omega)]
        have : ((seq + 1) % 16 + i) % 16 = (seq + (i + 1)) % 16 := by omega
        rw [this]


lemma feedAll_consecutive (fuel : ℕ) :
    ∀ (rem acc : List ℕ) (seq L arb_id : ℕ) (now : ℤ),
      rem ≠ [] → rem.length ≤ fuel → seq < 16 →
      feedAll now arb_id (consecutiveFramesAux fuel rem seq)
        ⟨[(arb_id, ⟨acc, L, (rem.length : ℤ), (seq + 15) % 16⟩)], [(arb_id, now)]⟩
      = ([(arb_id, acc ++ rem
            ++ List.replicate (7 * ((rem.length + 6) / 7) - rem.length) 0xCC)],
         IsoTpState.empty) := by
  induction fuel with
  | zero =>
    intro rem _ _ _ _ _ hne hf _
    exact absurd (List.eq_nil_of_length_eq_zero (Nat.le_zero.mp hf)) hne
  | succ f ih =>
    intro rem acc seq L arb_id now hne hf hseq
    have hlen : 0 < rem.length := List.length_pos.mpr hne
    have hchl : (rem.take 7).length = min 7 rem.length := List.length_take 7 rem
    obtain ⟨hor1, hor2, hor3⟩ := or32_of_lt_16 hseq
    have hand : seq &&& 0x0F = seq := and15_of_lt seq hseq
    simp only [consecutiveFramesAux, if_neg hne, hand, List.cons_append,
      List.length_cons, feedAll]
    have hclean : cleanup_old_messages now
        (⟨[(arb_id, ⟨acc, L, (rem.length : ℤ), (seq + 15) % 16⟩)],
          [(arb_id, now)]⟩ : IsoTpState) =
        ⟨[(arb_id, ⟨acc, L, (rem.length : ℤ), (seq + 15) % 16⟩)],
          [(arb_id, now)]⟩ := cleanup_fresh now arb_id _
    have hst : dlookup arb_id (cleanup_old_messages now
        (⟨[(arb_id, ⟨acc, L, (rem.length : ℤ), (seq + 15) % 16⟩)],
          [(arb_id, now)]⟩ : IsoTpState)).receive_buffer =
        some ⟨acc, L, (rem.length : ℤ), (seq + 15) % 16⟩ := by
      rw [hclean]; simp [dlookup]
    have h2 : ((0x20 ||| seq)
        :: (rem.take 7 ++ List.replicate (8 - ((rem.take 7).length + 1)) 0xCC)
        ).headD 0 >>> 4 = 2 := by
      simpa using hor2
    have hseqok : ((0x20 ||| seq)
        :: (rem.take 7 ++ List.replicate (8 - ((rem.take 7).length + 1)) 0xCC)
        ).headD 0 &&& 0x0F =
        ((⟨acc, L, (rem.length : ℤ), (seq + 15) % 16⟩ : RState).last_seq + 1)
          % 16 := by
      simp only [List.headD_cons, hor3]
      omega
    have hflen : ((0x20 ||| seq)
        :: (rem.take 7 ++ List.replicate (8 - ((rem.take 7).length + 1)) 0xCC)
        ).length = 8 := by
      simp only [List.length_cons, List.length_append, List.length_replicate, hchl]
      omega
    by_cases hc : rem.length ≤ 7
    · -- final Consecutive frame: the message completes
      have hrem : (⟨acc, L, (rem.length : ℤ), (seq + 15) % 16⟩ : RState).remaining
          - ((((0x20 ||| seq) :: (rem.take 7
              ++ List.replicate (8 - ((rem.take 7).length + 1)) 0xCC)
            ).length : ℤ) - 1) ≤ 0 := by
        rw [hflen]
        show (rem.length : ℤ) - (8 - 1) ≤ 0
        omega
      rw [process_cf_complete_eq now arb_id _ _ _ h2 hst hseqok hrem]
      rw [hclean]
      have hdrop : rem.drop 7 = [] := List.drop_eq_nil_of_le hc
      have htake : rem.take 7 = rem := List.take_of_length_le hc
      rw [hdrop, consecutiveFramesAux_nil]
      simp only [feedAll, Option.toList, derase, if_pos rfl, List.append_nil]
      rw [Prod.mk.injEq]
      constructor
      · simp only [htake, List.drop_succ_cons, List.drop_zero]
        rw [show 8 - (rem.length + 1)
            = 7 * ((rem.length + 6) / 7) - rem.length by omega]
        simp [List.append_assoc]
      · rfl
    · -- intermediate Consecutive frame: state is updated and we recurse
      have hrem : ¬ ((⟨acc, L, (rem.length : ℤ), (seq + 15) % 16⟩ : RState).remaining
          - ((((0x20 ||| seq) :: (rem.take 7
              ++ List.replicate (8 - ((rem.take 7).length + 1)) 0xCC)
            ).length : ℤ) - 1) ≤ 0) := by
        rw [hflen]
        show ¬ ((rem.length : ℤ) - (8 - 1) ≤ 0)
        omega
      rw [process_cf_incomplete_eq now arb_id _ _ _ h2 hst hseqok hrem]
      rw [hclean]
      have htl : (rem.take 7).length = 7 := by omega
      have hst' : ((⟨(⟨acc, L, (rem.length : ℤ), (seq + 15) % 16⟩ : RState).data
            ++ ((0x20 ||| seq) :: (rem.take 7
              ++ List.replicate (8 - ((rem.take 7).length + 1)) 0xCC)).drop 1,
          (⟨acc, L, (rem.length : ℤ), (seq + 15) % 16⟩ : RState).expected_length,
          (⟨acc, L, (rem.length : ℤ), (seq + 15) % 16⟩ : RState).remaining
            - ((((0x20 ||| seq) :: (rem.take 7
              ++ List.replicate (8 - ((rem.take 7).length + 1)) 0xCC)).length : ℤ) - 1),
          ((0x20 ||| seq) :: (rem.take 7
              ++ List.replicate (8 - ((rem.take 7).length + 1)) 0xCC)).headD 0
            &&& 0x0F⟩) : RState) =
          ⟨acc ++ rem.take 7, L, ((rem.drop 7).length : ℤ),
            (((seq + 1) % 16) + 15) % 16⟩ := by
        dsimp only
        rw [RState.mk.injEq]
        refine ⟨?_, ⟨rfl, ?_, ?_⟩⟩
        · simp only [List.drop_succ_cons, List.drop_zero, htl]
          rw [show (8 : ℕ) - (7 + 1) = 0 from rfl]
          simp
        · rw [hflen]
          simp only [List.length_drop]
          push_cast
          omega
        · simp only [List.headD_cons, hor3]
          omega
      rw [hst']
      simp only [dinsert, if_pos rfl, if_true]
      rw [ih (rem.drop 7) (acc ++ rem.take 7) ((seq + 1) % 16) L arb_id now
        (by
          intro hd
          have := congrArg List.length hd
          simp only [List.length_drop, List.length_nil] at this
          omega)
        (by simp only [List.length_drop]; omega)
        (Nat.mod_lt _ (by omega))]
      simp only [Option.toList, List.nil_append]
      rw [Prod.mk.injEq]
      constructor
      · simp only [List.length_drop]
        rw [show 7 * ((rem.length - 7 + 6) / 7) - (rem.length - 7)
            = 7 * ((rem.length + 6) / 7) - rem.length by omega]
        rw [List.append_assoc acc (rem.take 7), List.take_append_drop]
      · rfl


/-- C8: for every payload needing at least 16 Consecutive frames (length
over 111, within the 12-bit limit 4095), the encoder emits at least 17
frames whose Consecutive sequence numbers follow `1, 2, …, 15, 0, 1, …`
(frame `i + 1` has first byte `0x20 | ((i + 1) % 16)`), and feeding all
emitted frames in order to a fresh reassembler completes across the
sequence wrap, delivering exactly one message consisting of the payload
followed by the final frame's `0xCC` padding (the receiver's expected
sequence number wraps from 15 to 0 along the way). -/
theorem C8_sequence_wraparound (payload : List ℕ) (arb_id : ℕ) (now : ℤ)
    (hlong : 111 < payload.length) (hmax : payload.length ≤ 4095) :
    17 ≤ (create_send_frames payload).length ∧
    (∀ i, i + 1 < (create_send_frames payload).length →
      ((create_send_frames payload).getD (i + 1) []).headD 0
        = 0x20 ||| ((i + 1) % 16)) ∧
    (feedAll now arb_id (create_send_frames payload) IsoTpState.empty).1
      = [(arb_id, payload ++ List.replicate
          (7 * ((payload.length - 6 + 6) / 7) - (payload.length - 6)) 0xCC)] := by
  have h7 : ¬ (payload.length ≤ 7) := by omega
  have hdlen : (payload.drop 6).length = payload.length - 6 := by
    simp [List.length_drop]
  have hdne : payload.drop 6 ≠ [] := by
    intro hd
    have := congrArg List.length hd
    simp only [List.length_drop, List.length_nil] at this
    omega
  refine ⟨?_, ?_, ?_⟩
  · -- at least a First frame and 16 Consecutive frames
    simp only [create_send_frames, if_neg h7, List.length_cons, consecutiveFrames]
    rw [consecutiveFramesAux_length _ _ _ le_rfl, hdlen]
    omega
  · -- the Consecutive sequence numbers wrap 1, 2, …, 15, 0, 1, …
    intro i hi
    simp only [create_send_frames, if_neg h7, List.length_cons,
      consecutiveFrames] at hi ⊢
    rw [List.getD_cons_succ]
    rw [consecutiveFramesAux_head i _ _ _ le_rfl (by norm_num) (by omega)]
    rw [Nat.add_comm 1 i]
  · -- feeding all frames in order completes the reassembly across the wrap
    have hhi : (payload.length >>> 8) &&& 0x0F < 16 :=
      Nat.lt_succ_of_le Nat.and_le_right
    obtain ⟨ho1, ho2⟩ := or16_of_lt_16 hhi
    have hff : ((0x10 ||| ((payload.length >>> 8) &&& 0x0F))
        :: (payload.length &&& 0xFF) :: payload.take 6).headD 0 >>> 4 = 1 := by
      simpa using ho1
    simp only [create_send_frames, if_neg h7, feedAll]
    rw [process_ff_eq now arb_id _ IsoTpState.empty hff]
    have htke : (payload.take 6).length = 6 := by
      simp [List.length_take]; omega
    have hffst : ffState ((0x10 ||| ((payload.length >>> 8) &&& 0x0F))
        :: (payload.length &&& 0xFF) :: payload.take 6) =
        ⟨payload.take 6, payload.length, ((payload.drop 6).length : ℤ),
          (1 + 15) % 16⟩ := by
      unfold ffState ffLength
      rw [RState.mk.injEq]
      have harith : (((0x10 ||| ((payload.length >>> 8) &&& 0x0F))
          :: (payload.length &&& 0xFF) :: payload.take 6).headD 0 &&& 0x0F) <<< 8
          + ((0x10 ||| ((payload.length >>> 8) &&& 0x0F))
          :: (payload.length &&& 0xFF) :: payload.take 6).getD 1 0
          = payload.length := by
        simp only [List.headD_cons, List.getD_cons_succ, List.getD_cons_zero, ho2]
        have e1 : payload.length >>> 8 &&& 15 = payload.length / 256 % 16 := by
          rw [Nat.shiftRight_eq_div_pow]
          exact Nat.and_pow_two_sub_one_eq_mod _ 4
        have e2 : payload.length &&& 255 = payload.length % 256 :=
          Nat.and_pow_two_sub_one_eq_mod _ 8
        rw [e1, e2, Nat.shiftLeft_eq]
        show payload.length / 256 % 16 * 256 + payload.length % 256
          = payload.length
        omega
      refine ⟨rfl, harith, ?_, rfl⟩
      rw [harith]
      simp only [List.length_cons, htke, List.length_drop]
      push_cast
      omega
    rw [hffst]
    simp only [Option.toList, List.nil_append]
    have hred : ((⟨dinsert arb_id
          (⟨payload.take 6, payload.length, ((payload.drop 6).length : ℤ),
            (1 + 15) % 16⟩ : RState)
          (cleanup_old_messages now IsoTpState.empty).receive_buffer,
        dinsert arb_id now
          (cleanup_old_messages now IsoTpState.empty).last_received⟩)
        : IsoTpState) =
        ⟨[(arb_id, ⟨payload.take 6, payload.length,
            ((payload.drop 6).length : ℤ), (1 + 15) % 16⟩)],
          [(arb_id, now)]⟩ := rfl
    rw [hred]
    simp only [consecutiveFrames]
    rw [feedAll_consecutive ((payload.drop 6).length) (payload.drop 6)
      (payload.take 6) 1 payload.length arb_id now hdne le_rfl (by norm_num)]
    simp only [hdlen]
    rw [List.take_append_drop]

/-- C8 witness: a 112-byte payload (16 Consecutive frames, sequence
numbers wrapping 1…15, 0, 1) encodes to 17 frames and reassembles into
the payload followed by 6 padding bytes. -/
theorem C8_sequence_wraparound_witness :
    111 < (List.replicate 112 (0 : ℕ)).length ∧
    17 ≤ (create_send_frames (List.replicate 112 (0 : ℕ))).length ∧
    (feedAll 0 9 (create_send_frames (List.replicate 112 (0 : ℕ)))
        IsoTpState.empty).1
      = [(9, List.replicate 112 (0 : ℕ) ++ List.replicate 6 0xCC)] :=
  ⟨by decide,
   (C8_sequence_wraparound (List.replicate 112 0) 9 0 (by decide) (by decide)).1,
   by exact (C8_sequence_wraparound (List.replicate 112 0) 9 0
      (by decide) (by decide)).2.2⟩

end DriveSense
